import Mathlib

/-!
Verification of the bounded-buffer producer/consumer program.

The program (src/main.rs) consists of:
* `BoundedBuffer<BOUND>`: a fixed-capacity array-backed container with a
  `n_items` counter, LIFO `push`/`pop`, `empty`/`full` predicates and a
  `Display` rendering;
* `SyncedBoundedBuffer`: the buffer guarded by a mutex plus two condvars;
* `producer_routine` / `consumer_routine`: infinite loops that wait in a
  `while` loop on the appropriate condition, mutate, print and notify;
* `main`: parses two positional `usize` arguments and spawns the threads.

The embedding below translates each of these pieces.  Rust assertions
(`assert!` in `push`/`pop`, `expect`/`unwrap` panics in `main`) are
modelled as `Option`/sum results: `none` (or a `fatal`/`fault`
constructor) stands for an aborted execution, which in particular carries
no mutated state.  `isize` items are modelled as `Int` (no arithmetic is
performed on items, so machine overflow cannot arise); `usize` counters
are modelled as `Nat`.
-/

/-- Model of `struct BoundedBuffer<const BOUND: usize>` with fields `array: [isize; BOUND]` and `n_items: usize`.
The fixed-size array is modelled as a `List Int`; every buffer actually
constructed by the program has `array.length = BOUND` (see `Reachable`). -/
structure BoundedBuffer (BOUND : Nat) where
  array : List Int
  n_items : Nat
deriving DecidableEq

/-- Model of `fn new() -> Self`: a zeroed array and `n_items: 0`. -/
def BoundedBuffer.new (BOUND : Nat) : BoundedBuffer BOUND :=
  ⟨List.replicate BOUND 0, 0⟩

/-- Model of `fn empty(&self) -> bool`: true iff `self.n_items == 0`. -/
def BoundedBuffer.empty {BOUND : Nat} (b : BoundedBuffer BOUND) : Bool :=
  b.n_items == 0

/-- Model of `fn full(&self) -> bool`: true iff `self.n_items == BOUND`. -/
def BoundedBuffer.full {BOUND : Nat} (b : BoundedBuffer BOUND) : Bool :=
  b.n_items == BOUND

/-- Model of `fn push(&mut self, item: isize)`: asserts `!self.full()`, writes
`self.array[self.n_items] = item`, increments `self.n_items`.
The failed assertion (a Rust abort) is modelled as `none`. -/
def BoundedBuffer.push {BOUND : Nat} (b : BoundedBuffer BOUND) (item : Int) :
    Option (BoundedBuffer BOUND) :=
  if b.full then none
  else some ⟨b.array.set b.n_items item, b.n_items + 1⟩

/-- Model of `fn pop(&mut self) -> isize`: asserts `!self.empty()`, decrements
`self.n_items`, returns `self.array[self.n_items]` (at the decremented
index).  The failed assertion is modelled as `none`; a successful call
returns the popped item together with the post state. -/
def BoundedBuffer.pop {BOUND : Nat} (b : BoundedBuffer BOUND) :
    Option (Int × BoundedBuffer BOUND) :=
  if b.empty then none
  else some (b.array.getD (b.n_items - 1) 0, ⟨b.array, b.n_items - 1⟩)

/-- The buffers reachable from the initial state (`new`, count 0) by any
sequence of `push`/`pop` operations whose preconditions hold (i.e. that
do not trip the assertions). -/
inductive Reachable (BOUND : Nat) : BoundedBuffer BOUND → Prop where
  | init : Reachable BOUND (BoundedBuffer.new BOUND)
  | push (b b' : BoundedBuffer BOUND) (x : Int) :
      Reachable BOUND b → b.push x = some b' → Reachable BOUND b'
  | pop (b b' : BoundedBuffer BOUND) (r : Int) :
      Reachable BOUND b → b.pop = some (r, b') → Reachable BOUND b'

/-- Structural invariant maintained by the program: the count never
exceeds the capacity and the backing array keeps its fixed length. -/
theorem reachable_invariant {BOUND : Nat} {b : BoundedBuffer BOUND}
    (h : Reachable BOUND b) : b.n_items ≤ BOUND ∧ b.array.length = BOUND := by
  induction h with
  | init => simp [BoundedBuffer.new]
  | push b b' x _ hpush ih =>
      unfold BoundedBuffer.push at hpush
      split at hpush
      · exact absurd hpush (by simp)
      · rename_i hfull
        simp only [BoundedBuffer.full, beq_iff_eq] at hfull
        obtain ⟨hle, hlen⟩ := ih
        cases hpush
        constructor
        · exact Nat.succ_le_of_lt (Nat.lt_of_le_of_ne hle hfull)
        · simpa using hlen
  | pop b b' r _ hpop ih =>
      unfold BoundedBuffer.pop at hpop
      split at hpop
      · exact absurd hpop (by simp)
      · obtain ⟨hle, hlen⟩ := ih
        cases hpop
        exact ⟨Nat.le_trans (Nat.sub_le _ _) hle, hlen⟩

theorem list_getD_set_self (l : List Int) (i : Nat) (x : Int) (h : i < l.length) :
    (l.set i x).getD i 0 = x := by
  induction l generalizing i with
  | nil => simp at h
  | cons a t ih =>
      cases i with
      | zero => rfl
      | succ j =>
          simp only [List.set, List.getD, List.getElem?_cons_succ]
          simpa [List.getD] using ih j (by simpa using h)

theorem list_getD_set_ne (l : List Int) (i j : Nat) (x : Int) (h : i ≠ j) :
    (l.set i x).getD j 0 = l.getD j 0 := by
  induction l generalizing i j with
  | nil => rfl
  | cons a t ih =>
      cases i with
      | zero =>
          cases j with
          | zero => exact absurd rfl h
          | succ k => rfl
      | succ i' =>
          cases j with
          | zero => rfl
          | succ k =>
              simp only [List.set, List.getD, List.getElem?_cons_succ]
              simpa [List.getD] using ih i' k (fun hh => h (by omega))

/-- C1: Capacity invariant — every buffer reachable from the initial state
(count 0) by push/pop operations whose preconditions hold satisfies
`0 ≤ count ≤ BOUND`, and push and pop each preserve this invariant. -/
theorem capacity_invariant {BOUND : Nat} (b : BoundedBuffer BOUND)
    (h : Reachable BOUND b) :
    (0 ≤ b.n_items ∧ b.n_items ≤ BOUND) ∧
    (∀ (x : Int) (b' : BoundedBuffer BOUND), b.push x = some b' →
        0 ≤ b'.n_items ∧ b'.n_items ≤ BOUND) ∧
    (∀ (r : Int) (b' : BoundedBuffer BOUND), b.pop = some (r, b') →
        0 ≤ b'.n_items ∧ b'.n_items ≤ BOUND) := by
  refine ⟨⟨Nat.zero_le _, (reachable_invariant h).1⟩, ?_, ?_⟩
  · intro x b' hp
    exact ⟨Nat.zero_le _, (reachable_invariant (Reachable.push b b' x h hp)).1⟩
  · intro r b' hp
    exact ⟨Nat.zero_le _, (reachable_invariant (Reachable.pop b b' r h hp)).1⟩

/-- Witness for C1: the invariant holds at the initial buffer of capacity 30
(the `BUF_SIZE` constant of the program). -/
theorem capacity_invariant_witness :
    0 ≤ (BoundedBuffer.new 30).n_items ∧ (BoundedBuffer.new 30).n_items ≤ 30 :=
  (capacity_invariant (BoundedBuffer.new 30) Reachable.init).1

/-- C2: for every buffer with `count < BOUND` (so `!full()`) and item `x`,
`push x` succeeds, stores `x` at index `count`, increments `count` by one,
and leaves the array length and all other slots unchanged. -/
theorem push_correct {BOUND : Nat} (b : BoundedBuffer BOUND) (x : Int)
    (hlen : b.array.length = BOUND) (hlt : b.n_items < BOUND) :
    ∃ b', b.push x = some b' ∧
      b'.array.getD b.n_items 0 = x ∧
      b'.n_items = b.n_items + 1 ∧
      b'.array.length = b.array.length ∧
      ∀ i, i ≠ b.n_items → b'.array.getD i 0 = b.array.getD i 0 := by
  have hfull : b.full = false := by
    simp [BoundedBuffer.full, Nat.ne_of_lt hlt]
  refine ⟨⟨b.array.set b.n_items x, b.n_items + 1⟩, ?_, ?_, rfl, by simp, ?_⟩
  · simp [BoundedBuffer.push, hfull]
  · exact list_getD_set_self b.array b.n_items x (by omega)
  · intro i hi
    exact list_getD_set_ne b.array b.n_items i x (fun hh => hi hh.symm)

/-- Witness for C2: pushing 5 into the fresh buffer of capacity 2. -/
theorem push_correct_witness :
    (BoundedBuffer.new 2).array.length = 2 ∧ (BoundedBuffer.new 2).n_items < 2 ∧
    ∃ b', (BoundedBuffer.new 2).push 5 = some b' ∧
      b'.array.getD (BoundedBuffer.new 2).n_items 0 = 5 ∧
      b'.n_items = (BoundedBuffer.new 2).n_items + 1 ∧
      b'.array.length = (BoundedBuffer.new 2).array.length ∧
      ∀ i, i ≠ (BoundedBuffer.new 2).n_items →
        b'.array.getD i 0 = (BoundedBuffer.new 2).array.getD i 0 :=
  ⟨by decide, by decide, push_correct (BoundedBuffer.new 2) 5 (by decide) (by decide)⟩

/-- C3: for every buffer with `count > 0` (so `!empty()`), `pop` decrements
`count` by one and returns the item stored at the new (decremented) count
index; moreover that item is the most recently pushed one — a `pop`
directly following a successful `push x` returns `x` (LIFO order). -/
theorem pop_correct {BOUND : Nat} (b : BoundedBuffer BOUND)
    (h : 0 < b.n_items) :
    b.pop = some (b.array.getD (b.n_items - 1) 0,
      ⟨b.array, b.n_items - 1⟩) ∧
    ∀ (c c' : BoundedBuffer BOUND) (x : Int),
      c.n_items < c.array.length → c.push x = some c' →
      (c'.pop).map Prod.fst = some x := by
  constructor
  · have hne : b.empty = false := by
      simp [BoundedBuffer.empty, Nat.pos_iff_ne_zero.mp h]
    simp [BoundedBuffer.pop, hne]
  · intro c c' x hcl hp
    unfold BoundedBuffer.push at hp
    split at hp
    · exact absurd hp (by simp)
    · cases hp
      have hkey := list_getD_set_self c.array c.n_items x hcl
      simp [BoundedBuffer.pop, BoundedBuffer.empty]
      simpa using hkey

/-- Witness for C3: popping the one-element buffer `[7]` of capacity 1. -/
theorem pop_correct_witness :
    0 < (BoundedBuffer.mk [7] 1 : BoundedBuffer 1).n_items ∧
    (BoundedBuffer.mk [7] 1 : BoundedBuffer 1).pop =
      some (((BoundedBuffer.mk [7] 1 : BoundedBuffer 1)).array.getD 0 0,
        ⟨[7], 0⟩) :=
  ⟨by decide, (pop_correct (BoundedBuffer.mk [7] 1) (by decide)).1⟩

/-- C4: `push` on a full buffer and `pop` on an empty buffer trip the
assertion (modelled as `none`, the aborted execution, which carries no
mutated state); under the preconditions `!full()` / `!empty()` the
assertion never fires — the operation succeeds. -/
theorem assertion_semantics {BOUND : Nat} (b : BoundedBuffer BOUND)
    (x : Int) :
    (b.push x = none ↔ b.full = true) ∧
    (b.pop = none ↔ b.empty = true) := by
  constructor
  · unfold BoundedBuffer.push
    split <;> rename_i hf <;> simp [hf]
  · unfold BoundedBuffer.pop
    split <;> rename_i he <;> simp [he]

/-- Witness for C4: push on the full two-slot buffer aborts, pop on the
fresh (empty) buffer aborts. -/
theorem assertion_semantics_witness :
    (BoundedBuffer.mk [1, 2] 2 : BoundedBuffer 2).push 5 = none ∧
    (BoundedBuffer.new 2).pop = none :=
  ⟨(assertion_semantics (BoundedBuffer.mk [1, 2] 2) 5).1.mpr (by decide),
   (assertion_semantics (BoundedBuffer.new 2) 5).2.mpr (by decide)⟩

/-- C6: round trip — for every buffer with `!full()` (`count < BOUND`) and
item `x`, `push x` followed immediately by `pop` returns `x` and restores
the original count; in particular an empty buffer is empty again. -/
theorem push_pop_roundtrip {BOUND : Nat} (b : BoundedBuffer BOUND) (x : Int)
    (hlen : b.array.length = BOUND) (hlt : b.n_items < BOUND) :
    ∃ b₁ b₂, b.push x = some b₁ ∧ b₁.pop = some (x, b₂) ∧
      b₂.n_items = b.n_items ∧ b₂.empty = b.empty := by
  have hfull : b.full = false := by
    simp [BoundedBuffer.full, Nat.ne_of_lt hlt]
  refine ⟨⟨b.array.set b.n_items x, b.n_items + 1⟩,
    ⟨b.array.set b.n_items x, b.n_items⟩, ?_, ?_, rfl, rfl⟩
  · simp [BoundedBuffer.push, hfull]
  · have hkey := list_getD_set_self b.array b.n_items x (by omega)
    simp [BoundedBuffer.pop, BoundedBuffer.empty]
    simpa using hkey

/-- Witness for C6: push 5 into the fresh capacity-2 buffer, then pop. -/
theorem push_pop_roundtrip_witness :
    (BoundedBuffer.new 2).array.length = 2 ∧
    (BoundedBuffer.new 2).n_items < 2 ∧
    ∃ b₁ b₂, (BoundedBuffer.new 2).push 5 = some b₁ ∧
      b₁.pop = some (5, b₂) ∧
      b₂.n_items = (BoundedBuffer.new 2).n_items ∧
      b₂.empty = (BoundedBuffer.new 2).empty :=
  ⟨by decide, by decide,
    push_pop_roundtrip (BoundedBuffer.new 2) 5 (by decide) (by decide)⟩

/-- C9: frame property — a successful `push` changes no storage slot other
than the one at the old count index, and a successful `pop` changes no
storage slot at all: the array is untouched, the popped value is still
stored at the new count index, and only the count field changes. -/
theorem frame_property {BOUND : Nat} :
    (∀ (b : BoundedBuffer BOUND) (x : Int) (b' : BoundedBuffer BOUND),
        b.push x = some b' →
        ∀ i, i ≠ b.n_items → b'.array.getD i 0 = b.array.getD i 0) ∧
    (∀ (b : BoundedBuffer BOUND) (r : Int) (b' : BoundedBuffer BOUND),
        b.pop = some (r, b') →
        b'.array = b.array ∧ b'.n_items = b.n_items - 1 ∧
        b'.array.getD b'.n_items 0 = r) := by
  constructor
  · intro b x b' hp i hi
    unfold BoundedBuffer.push at hp
    split at hp
    · exact absurd hp (by simp)
    · cases hp
      exact list_getD_set_ne b.array b.n_items i x (fun hh => hi hh.symm)
  · intro b r b' hp
    unfold BoundedBuffer.pop at hp
    split at hp
    · exact absurd hp (by simp)
    · cases hp
      exact ⟨rfl, rfl, rfl⟩

/-- Witness for C9: pushing 5 onto `[7, 0]` (count 1) leaves slot 0 alone,
and popping it back leaves the array `[7, 5]` with the value 5 still
stored at the new count index. -/
theorem frame_property_witness :
    ((BoundedBuffer.mk [7, 5] 2 : BoundedBuffer 2).array.getD 0 0 =
      (BoundedBuffer.mk [7, 0] 1 : BoundedBuffer 2).array.getD 0 0) ∧
    ((BoundedBuffer.mk [7, 5] 1 : BoundedBuffer 2).array =
        (BoundedBuffer.mk [7, 5] 2 : BoundedBuffer 2).array ∧
      (BoundedBuffer.mk [7, 5] 1 : BoundedBuffer 2).n_items =
        (BoundedBuffer.mk [7, 5] 2 : BoundedBuffer 2).n_items - 1 ∧
      (BoundedBuffer.mk [7, 5] 1 : BoundedBuffer 2).array.getD
        (BoundedBuffer.mk [7, 5] 1 : BoundedBuffer 2).n_items 0 = 5) :=
  ⟨(@frame_property 2).1 (BoundedBuffer.mk [7, 0] 1) 5
      (BoundedBuffer.mk [7, 5] 2) (by decide) 0 (by decide),
   (@frame_property 2).2 (BoundedBuffer.mk [7, 5] 2) 5
      (BoundedBuffer.mk [7, 5] 1) (by decide)⟩

/-- C10: zero-capacity edge case — the fresh `BoundedBuffer<0>` is both
empty and full, every `push` and every `pop` on it trips the assertion,
and the same holds for every reachable zero-capacity buffer: no operation
on a zero-capacity buffer can ever succeed. -/
theorem zero_capacity :
    (BoundedBuffer.new 0).empty = true ∧
    (BoundedBuffer.new 0).full = true ∧
    (∀ x, (BoundedBuffer.new 0).push x = none) ∧
    (BoundedBuffer.new 0).pop = none ∧
    ∀ c : BoundedBuffer 0, Reachable 0 c →
      (∀ x, c.push x = none) ∧ c.pop = none := by
  refine ⟨rfl, rfl, fun x => rfl, rfl, ?_⟩
  intro c hc
  have hz : c.n_items = 0 := Nat.le_zero.mp (reachable_invariant hc).1
  constructor
  · intro x
    simp [BoundedBuffer.push, BoundedBuffer.full, hz]
  · simp [BoundedBuffer.pop, BoundedBuffer.empty, hz]

/-- Witness for C10: the reachable-state clause applied to the initial
zero-capacity buffer. -/
theorem zero_capacity_witness :
    (BoundedBuffer.new 0).push 3 = none ∧ (BoundedBuffer.new 0).pop = none :=
  ⟨(zero_capacity.2.2.2.2 (BoundedBuffer.new 0) Reachable.init).1 3,
   (zero_capacity.2.2.2.2 (BoundedBuffer.new 0) Reachable.init).2⟩

/-- Model of `impl Display for BoundedBuffer`: writes `[`; if `n_items > 0` writes
`array[0]` and then `, array[i]` for each `i in 1..n_items`; writes `]`.
The `for` loop is modelled as a fold over the index list `[1, …, n_items-1]`,
accumulating the output string. -/
def BoundedBuffer.fmt {BOUND : Nat} (b : BoundedBuffer BOUND) : String :=
  "[" ++
    (if b.n_items > 0 then
      (List.range' 1 (b.n_items - 1)).foldl
        (fun s i => s ++ ", " ++ toString (b.array.getD i 0))
        (toString (b.array.getD 0 0))
    else "") ++ "]"

/-- Spec-side notion, following the words of the spec: a list of rendered items
"separated by comma-space". -/
def commaSpaceSep : List String → String
  | [] => ""
  | [a] => a
  | a :: c :: rest => a ++ ", " ++ commaSpaceSep (c :: rest)

/-- Spec-side display format: an open bracket, the held items in storage
order separated by comma-space, and a close bracket. -/
def displaySpec (items : List Int) : String :=
  "[" ++ commaSpaceSep (items.map toString) ++ "]"

theorem foldl_commaSep (l : List String) (a : String) :
    l.foldl (fun s t => s ++ ", " ++ t) a = commaSpaceSep (a :: l) := by
  induction l generalizing a with
  | nil => rfl
  | cons x t ih =>
      rw [List.foldl_cons, ih]
      cases t with
      | nil => rfl
      | cons y t' =>
          simp only [commaSpaceSep, String.append_assoc]

theorem map_getD_range' (arr : List Int) (k s : Nat) (h : s + k ≤ arr.length) :
    (List.range' s k).map (fun i => arr.getD i 0) = (arr.drop s).take k := by
  induction k generalizing s with
  | zero => simp
  | succ m ih =>
      have hs : s < arr.length := by omega
      rw [List.range'_succ, List.map_cons, ih (s + 1) (by omega),
        List.drop_eq_getElem_cons hs, List.take_succ_cons]
      congr 1
      simp [List.getD_eq_getElem?_getD, List.getElem?_eq_getElem hs]

/-- C7: textual rendering — for every buffer state (with the count within
the array, as every real buffer has), the Display output is an open
bracket, the first `count` stored items in storage order separated by
comma-space, and a close bracket. -/
theorem display_format {BOUND : Nat} (b : BoundedBuffer BOUND)
    (h : b.n_items ≤ b.array.length) :
    b.fmt = displaySpec (b.array.take b.n_items) := by
  obtain ⟨arr, n⟩ := b
  cases n with
  | zero => simp [BoundedBuffer.fmt, displaySpec, commaSpaceSep]
  | succ m =>
      cases arr with
      | nil => simp at h
      | cons a rest =>
          simp only [BoundedBuffer.fmt, displaySpec] at h ⊢
          have h2 : (List.range' 1 m).map (fun i => (a :: rest).getD i 0) =
              rest.take m := by
            have hh : m ≤ rest.length := by simpa using h
            have := map_getD_range' (a :: rest) m 1
              (by simp only [List.length_cons]; omega)
            simpa using this
          have h3 : (List.range' 1 m).map
              (fun i => toString ((a :: rest).getD i 0)) =
              (rest.take m).map toString := by
            have := congrArg (List.map toString) h2
            simpa [List.map_map, Function.comp] using this
          have h4 : (List.range' 1 m).foldl
              (fun s i => s ++ ", " ++ toString ((a :: rest).getD i 0))
              (toString ((a :: rest).getD 0 0)) =
              commaSpaceSep (toString a :: (rest.take m).map toString) := by
            rw [← List.foldl_map (fun i => toString ((a :: rest).getD i 0))
              (fun s t => s ++ ", " ++ t), h3, foldl_commaSep]
            rfl
          simp only [Nat.succ_sub_one, if_pos (Nat.succ_pos m), h4,
            List.take_succ_cons, List.map_cons]

/-- Witness for C7: the capacity-3 buffer holding 1, 2, 3 renders exactly
as the text between brackets, which evaluates to the same string as the
spec-side rendering; instantiating also shows the concrete strings. -/
theorem display_format_witness :
    (BoundedBuffer.mk [1, 2, 3] 3 : BoundedBuffer 3).n_items ≤ 3 ∧
    (BoundedBuffer.mk [1, 2, 3] 3 : BoundedBuffer 3).fmt =
      displaySpec ([1, 2, 3].take 3) :=
  ⟨by decide, display_format (BoundedBuffer.mk [1, 2, 3] 3) (by decide)⟩

/-- Model of the wait loop `while pred(bbuf) \x7b bbuf = condvar.wait(bbuf) \x7d` of the
producer/consumer routines.  Each `wait` releases the lock, so when it
returns the guarded state may have been changed arbitrarily by other
tasks; `wakeups` is the (adversarially chosen) sequence of states seen at
successive wakeups.  `none` means the task is still blocked after the
listed wakeups; `some c` means the loop exited with the lock held and the
buffer in state `c`. -/
def waitWhile {α : Type} (p : α → Bool) : α → List α → Option α
  | b, [] => if p b then none else some b
  | b, b' :: rest => if p b then waitWhile p b' rest else some b

/-- Outcome of one iteration of the locked section of a driver routine. -/
inductive IterResult (α : Type) where
  | blocked : IterResult α
  | fault : IterResult α
  | done : α → IterResult α
deriving DecidableEq

/-- Model of one iteration of the locked section of `producer_routine`: wait in a
`while` loop until `!full()`, then `push(item)`.  `fault` is the aborted
execution in which the push assertion fires. -/
def producerIteration {BOUND : Nat} (item : Int) (b : BoundedBuffer BOUND)
    (wakeups : List (BoundedBuffer BOUND)) : IterResult (BoundedBuffer BOUND) :=
  match waitWhile (fun c => c.full) b wakeups with
  | none => IterResult.blocked
  | some c =>
      match c.push item with
      | none => IterResult.fault
      | some c' => IterResult.done c'

/-- Model of one iteration of the locked section of `consumer_routine`: wait in a
`while` loop until `!empty()`, then `pop()`. -/
def consumerIteration {BOUND : Nat} (b : BoundedBuffer BOUND)
    (wakeups : List (BoundedBuffer BOUND)) : IterResult (BoundedBuffer BOUND) :=
  match waitWhile (fun c => c.empty) b wakeups with
  | none => IterResult.blocked
  | some c =>
      match c.pop with
      | none => IterResult.fault
      | some rc => IterResult.done rc.2

theorem waitWhile_exit {α : Type} (p : α → Bool) (b : α) (w : List α) (c : α)
    (h : waitWhile p b w = some c) : p c = false := by
  induction w generalizing b with
  | nil =>
      unfold waitWhile at h
      split at h
      · exact absurd h (by simp)
      · rename_i hpb
        cases h
        simpa using hpb
  | cons b' rest ih =>
      unfold waitWhile at h
      split at h
      · exact ih b' h
      · rename_i hpb
        cases h
        simpa using hpb

/-- C5: the condition waits in both routines are wrapped in loops that
re-test the predicate after every wakeup, so whatever states the wakeups
deliver, the loop only exits into a state where the awaited condition
holds (`!full` / `!empty`), and the subsequent mutation never trips the
push/pop assertion: no iteration of either routine can `fault`. -/
theorem recheck_on_wakeup {BOUND : Nat} (item : Int)
    (b : BoundedBuffer BOUND) (wakeups : List (BoundedBuffer BOUND)) :
    (∀ c, waitWhile (fun d => d.full) b wakeups = some c → c.full = false) ∧
    (∀ c, waitWhile (fun d => d.empty) b wakeups = some c → c.empty = false) ∧
    producerIteration item b wakeups ≠ IterResult.fault ∧
    consumerIteration b wakeups ≠ IterResult.fault := by
  refine ⟨fun c hc => waitWhile_exit _ b wakeups c hc,
    fun c hc => waitWhile_exit _ b wakeups c hc, ?_, ?_⟩
  · unfold producerIteration
    split
    · simp
    · rename_i c hc
      have hf : c.full = false := waitWhile_exit _ b wakeups c hc
      have : c.push item ≠ none := by
        simp [BoundedBuffer.push, hf]
      split
      · exact absurd (by assumption) this
      · simp
  · unfold consumerIteration
    split
    · simp
    · rename_i c hc
      have he : c.empty = false := waitWhile_exit _ b wakeups c hc
      have : c.pop ≠ none := by
        simp [BoundedBuffer.pop, he]
      split
      · exact absurd (by assumption) this
      · simp

/-- Witness for C5: with capacity 1, a producer woken first into a
still-full buffer and then into a non-full one exits the wait loop only
in the non-full state and completes without a fault. -/
theorem recheck_on_wakeup_witness :
    (BoundedBuffer.mk [0] 0 : BoundedBuffer 1).full = false ∧
    producerIteration 5 (BoundedBuffer.mk [9] 1)
        [BoundedBuffer.mk [9] 1, BoundedBuffer.mk [0] 0] ≠
      (IterResult.fault : IterResult (BoundedBuffer 1)) :=
  ⟨(recheck_on_wakeup 5 (BoundedBuffer.mk [9] 1)
      [BoundedBuffer.mk [9] 1, BoundedBuffer.mk [0] 0]).1
      (BoundedBuffer.mk [0] 0) (by decide),
   (recheck_on_wakeup 5 (BoundedBuffer.mk [9] 1)
      [BoundedBuffer.mk [9] 1, BoundedBuffer.mk [0] 0]).2.2.1⟩

/-- Value of `usize::MAX` on the 64-bit targets the program is built for. -/
def USIZE_MAX : Nat := 2 ^ 64 - 1

/-- Removal of the optional leading `+` sign accepted by the unsigned Rust `parse`. -/
def stripPlus (cs : List Char) : List Char :=
  match cs with
  | '+' :: rest => rest
  | _ => cs

/-- Numeric value of a decimal digit string. -/
def digitsToNat (cs : List Char) : Nat :=
  cs.foldl (fun acc c => acc * 10 + (c.toNat - 48)) 0

/-- Model of `str::parse::<usize>()`: after an optional `+` sign the string must be
a nonempty run of ASCII digits whose value fits in `usize`; anything else
(empty string, lone sign, `-` sign, non-digit characters, overflow) is a
parse error, modelled as `none`. -/
def parseUsize (s : String) : Option Nat :=
  let cs := stripPlus s.data
  if cs.isEmpty then none
  else if cs.all Char.isDigit then
    if digitsToNat cs ≤ USIZE_MAX then some (digitsToNat cs) else none
  else none

/-- Outcome of the startup phase of `main`.  `fatal msg` models a panic
(`expect` on a missing argument or `unwrap` on a failed parse): the
process exits with a non-zero status and a diagnostic, and no thread is
spawned.  `running np nc` models reaching the spawn loops with the parsed
producer and consumer counts. -/
inductive MainResult where
  | fatal : String → MainResult
  | running : Nat → Nat → MainResult
deriving DecidableEq

/-- Model of the argument handling of `fn main()`, applied to the command-line arguments
after the program name: take the first argument (`expect` panics when it
is missing) and parse it as `usize` (`unwrap` panics on a parse error),
then do the same for the second. -/
def mainStart (args : List String) : MainResult :=
  match args with
  | [] => MainResult.fatal "missing argument: n_producers"
  | a1 :: rest =>
      match parseUsize a1 with
      | none => MainResult.fatal "invalid digit found in string"
      | some np =>
          match rest with
          | [] => MainResult.fatal "missing argument: n_consumers"
          | a2 :: _ =>
              match parseUsize a2 with
              | none => MainResult.fatal "invalid digit found in string"
              | some nc => MainResult.running np nc

/-- Spec-side notion, following the words of the spec: the string is a
non-negative integer, i.e. an optionally `+`-signed nonempty run of
decimal digits. -/
def isNonnegIntLiteral (s : String) : Bool :=
  !(stripPlus s.data).isEmpty && (stripPlus s.data).all Char.isDigit


theorem parseUsize_none_of_not_literal (s : String)
    (h : isNonnegIntLiteral s = false) : parseUsize s = none := by
  unfold isNonnegIntLiteral at h
  unfold parseUsize
  cases hemp : (stripPlus s.data).isEmpty with
  | true => simp [hemp]
  | false =>
      cases hdig : (stripPlus s.data).all Char.isDigit with
      | true => rw [hemp, hdig] at h; simp at h
      | false => simp [hemp, hdig]

/-- C8: startup arguments — `main` reads exactly two positional
arguments, the producer count then the consumer count; when either is
missing or is not a non-negative integer, startup panics (a fatal,
non-zero exit with a diagnostic) and no producer or consumer thread is
spawned; when both arguments parse, the spawn phase is reached with the
two parsed counts. -/
theorem startup_arguments (args : List String)
    (h : args.length < 2 ∨ isNonnegIntLiteral (args.getD 0 "") = false ∨
      isNonnegIntLiteral (args.getD 1 "") = false) :
    (∃ msg, mainStart args = MainResult.fatal msg) ∧
    (∀ np nc, mainStart args ≠ MainResult.running np nc) ∧
    ∀ (a1 a2 : String) (rest : List String) (np nc : Nat),
      parseUsize a1 = some np → parseUsize a2 = some nc →
      mainStart (a1 :: a2 :: rest) = MainResult.running np nc := by
  have hfatal : ∃ msg, mainStart args = MainResult.fatal msg := by
    cases args with
    | nil => exact ⟨_, rfl⟩
    | cons a1 rest1 =>
        cases rest1 with
        | nil =>
            simp only [mainStart]
            cases hp : parseUsize a1
            · exact ⟨_, rfl⟩
            · exact ⟨_, rfl⟩
        | cons a2 rest =>
            rcases h with hl | hv | hv
            · simp at hl
              omega
            · have hv1 : isNonnegIntLiteral a1 = false := by simpa using hv
              simp only [mainStart]
              rw [parseUsize_none_of_not_literal a1 hv1]
              exact ⟨_, rfl⟩
            · have hv2 : isNonnegIntLiteral a2 = false := by simpa using hv
              simp only [mainStart]
              cases hp : parseUsize a1
              · exact ⟨_, rfl⟩
              · rw [parseUsize_none_of_not_literal a2 hv2]
                exact ⟨_, rfl⟩
  refine ⟨hfatal, ?_, ?_⟩
  · intro np nc hrun
    obtain ⟨msg, hm⟩ := hfatal
    rw [hm] at hrun
    exact MainResult.noConfusion hrun
  · intro a1 a2 rest np nc h1 h2
    simp only [mainStart]
    rw [h1, h2]

/-- Witness for C8: with no arguments at all, startup is fatal and no
thread is spawned. -/
theorem startup_arguments_witness :
    ([] : List String).length < 2 ∧
    (∃ msg, mainStart [] = MainResult.fatal msg) ∧
    ∀ np nc, mainStart [] ≠ MainResult.running np nc :=
  ⟨by decide,
   (startup_arguments [] (Or.inl (by decide))).1,
   (startup_arguments [] (Or.inl (by decide))).2.1⟩
